import Mathlib

/-!
# Verification of the Miningcore WebUI2 stratum-endpoint logic

This file gives a shallow embedding, in Lean 4, of the endpoint-selection,
latency-probe and pool-data-normalisation logic of the Miningcore WebUI2
(Next.js) front end, and proves (or refutes) the specified properties.

Embedding conventions:
* JavaScript numbers are embedded as `Int` (the relevant code only compares
  and copies them; no float-specific behaviour is involved in any property
  proved here).
* `null`/`undefined` valued fields become `Option` fields.
* The pool's port map (a JavaScript object with integer-like keys) becomes an
  association list in ascending key order, which is exactly the order
  `Object.entries` produces for integer-like keys.
* `forEach` loops with mutable accumulators become folds / structural
  recursion carrying the accumulator explicitly.
-/

set_option autoImplicit false

namespace Webui2

/-- `String.toLowerCase()` of JavaScript, for the ASCII range used here. -/
def strLower (s : String) : String :=
  String.mk (s.data.map Char.toLower)

/-- `String.toUpperCase()` of JavaScript, for the ASCII range used here. -/
def strUpper (s : String) : String :=
  String.mk (s.data.map Char.toUpper)

/-- Characters kept by the regex replace `/[^a-z0-9]/g` → `''`. -/
def isLowerAlnum (c : Char) : Bool :=
  (decide ('a' ≤ c) && decide (c ≤ 'z')) || (decide ('0' ≤ c) && decide (c ≤ '9'))

/-- `profile.toLowerCase().replace(/[^a-z0-9]/g, '')` from `defaultEndpointRow`. -/
def condense (s : String) : String :=
  String.mk ((s.data.map Char.toLower).filter isLowerAlnum)

/-- Substring occurrence on character lists (JavaScript `String.includes`). -/
def listInfix (needle : List Char) : List Char → Bool
  | [] => needle.isEmpty
  | c :: rest => needle.isPrefixOf (c :: rest) || listInfix needle rest

/-- JavaScript `hay.includes(needle)`. -/
def strIncludes (hay needle : String) : Bool :=
  listInfix needle.data hay.data

/-- `friendlyRegion` from `pools/[poolId]/page.tsx`: maps a host string to a
`(label, flag)` pair by substring sniffing. -/
def friendlyRegion (host : String) : String × String :=
  let n := strLower host
  if strIncludes n "eu" then ("Europe", "🇪🇺")
  else if strIncludes n "us" then ("North America", "🇺🇸")
  else if strIncludes n "sg" || strIncludes n "asia" || strIncludes n "ap" then ("Asia", "🇸🇬")
  else if strIncludes n "ru" then ("Russia", "🇷🇺")
  else if strIncludes n "br" || strIncludes n "sa" then ("South America", "🇧🇷")
  else ("Global", "🌐")

/-- The `varDiff` block of a Miningcore port configuration. -/
structure VarDiffConfig where
  minDiff : Option Int := none
  maxDiff : Option Int := none
  targetTime : Option Int := none
  retargetTime : Option Int := none
  variancePercent : Option Int := none
deriving DecidableEq, Repr

/-- A Miningcore port configuration entry (value of the pool's `ports` map). -/
structure PortConfig where
  name : Option String := none
  difficulty : Option Int := none
  varDiff : Option VarDiffConfig := none
deriving DecidableEq, Repr

/-- `ConnectionRow` from `pools/[poolId]/page.tsx`. -/
structure ConnectionRow where
  id : String
  label : String
  flag : String
  host : String
  port : Int
  endpoint : String
  profileName : Option String := none
  difficulty : Option Int := none
  varDiffMin : Option Int := none
  varDiffMax : Option Int := none
  varDiffTarget : Option Int := none
  varDiffRetarget : Option Int := none
  varDiffVariance : Option Int := none
deriving DecidableEq, Repr

/-- One entry of the `connectionRows` list built from a `(port, config)` pair
(the non-empty branch of the `connectionRows` memo). -/
def rowOfEntry (stratumHost : String) (e : Int × PortConfig) : ConnectionRow :=
  let port := e.1
  let config := e.2
  let endpointHost := stratumHost ++ ":" ++ toString port
  let region := friendlyRegion endpointHost
  { id := stratumHost ++ "-" ++ toString port
    label := region.1
    flag := region.2
    host := stratumHost
    port := port
    endpoint := "stratum+tcp://" ++ stratumHost ++ ":" ++ toString port
    profileName := config.name
    difficulty := config.difficulty
    varDiffMin := (config.varDiff.bind (fun v => v.minDiff))
    varDiffMax := (config.varDiff.bind (fun v => v.maxDiff))
    varDiffTarget := (config.varDiff.bind (fun v => v.targetTime))
    varDiffRetarget := (config.varDiff.bind (fun v => v.retargetTime))
    varDiffVariance := (config.varDiff.bind (fun v => v.variancePercent)) }

/-- `connectionRows` from `pools/[poolId]/page.tsx`: one row per port entry,
with a single synthetic `default` row when the port map is empty. -/
def connectionRowsOf (stratumHost : String) (portEntries : List (Int × PortConfig)) :
    List ConnectionRow :=
  if portEntries.isEmpty then
    let region := friendlyRegion stratumHost
    [{ id := "default"
       label := region.1
       flag := region.2
       host := stratumHost
       port := 3333
       endpoint := "stratum+tcp://" ++ stratumHost }]
  else
    portEntries.map (rowOfEntry stratumHost)

/-- The mid-tier test of `defaultEndpointRow`: the condensed profile name must
contain `midrange`, `midtier` or `medium`. -/
def isMidTierRow (row : ConnectionRow) : Bool :=
  let condensed := condense (row.profileName.getD "")
  strIncludes condensed "midrange" || strIncludes condensed "midtier" ||
    strIncludes condensed "medium"

/-- `row.difficulty ?? row.varDiffMin ?? null` from `defaultEndpointRow`. -/
def effectiveDiff (row : ConnectionRow) : Option Int :=
  row.difficulty.orElse (fun _ => row.varDiffMin)

/-- The second preference of `defaultEndpointRow`: an effective difficulty in
`(0, 2048]`. -/
def inPreferredDiffRange (row : ConnectionRow) : Bool :=
  match effectiveDiff row with
  | some d => decide (0 < d) && decide (d ≤ 2048)
  | none => false

/-- `defaultEndpointRow` from `pools/[poolId]/page.tsx`. -/
def defaultEndpointRow (rows : List ConnectionRow) : Option ConnectionRow :=
  if rows.isEmpty then none
  else
    match rows.find? isMidTierRow with
    | some r => some r
    | none =>
      match rows.find? inPreferredDiffRange with
      | some r => some r
      | none => rows.head?

/-- Status of a latency sample (`LatencyState.status` in the source). -/
inductive LatencyStatus
  | idle
  | testing
  | success
  | error
deriving DecidableEq, Repr

/-- `LatencyState` from `pools/[poolId]/page.tsx` (also used by
`StratumLatencyPanel.tsx`): one latency sample. -/
structure LatencyState where
  latency : Option Int := none
  status : LatencyStatus := .idle
  error : Option String := none
deriving DecidableEq, Repr

/-- A latency map `Record<string, LatencyState>`, keyed by row id. -/
abbrev LatencyMap := List (String × LatencyState)

/-- The latency of a row's sample when that sample has `success` status
(`entry?.status === 'success' && entry.latency !== null` guard in the
source); `none` otherwise. -/
def successLatency (m : LatencyMap) (row : ConnectionRow) : Option Int :=
  match m.lookup row.id with
  | some e => if e.status = .success then e.latency else none
  | none => none

/-- One iteration of the `forEach` loop of `bestLatencyRow`: replace the
current `best`/`bestLatency` pair when the row has a strictly smaller
successful latency (`entry.latency < bestLatency` in the source; `none`
plays the role of the initial `best = null` with `bestLatency = +∞`,
which any finite latency beats). -/
def bestStep (m : LatencyMap) (acc : Option (ConnectionRow × Int)) (row : ConnectionRow) :
    Option (ConnectionRow × Int) :=
  match successLatency m row with
  | some l =>
    match acc with
    | none => some (row, l)
    | some (b, bl) => if l < bl then some (row, l) else some (b, bl)
  | none => acc

/-- The `forEach` loop of `bestLatencyRow`, carrying the mutable
`best`/`bestLatency` pair explicitly. -/
def bestLatAux (m : LatencyMap) :
    List ConnectionRow → Option (ConnectionRow × Int) → Option (ConnectionRow × Int)
  | [], acc => acc
  | row :: rest, acc => bestLatAux m rest (bestStep m acc row)

/-- `bestLatencyRow` from `pools/[poolId]/page.tsx`: the row with the
numerically smallest successful latency sample. -/
def bestLatencyRow (rows : List ConnectionRow) (m : LatencyMap) : Option ConnectionRow :=
  (bestLatAux m rows none).map Prod.fst

/-- The timeout actually enforced by the `/api/latency` route:
`Math.min(Math.max(Number(payload.timeout) || 3000, 500), 10_000)`.
`none` stands for a missing or non-numeric `timeout` field (where JavaScript
`Number` yields `NaN`); both `NaN` and `0` are falsy, so `|| 3000` replaces
them with the default before clamping. -/
def enforcedTimeout (requested : Option Int) : Int :=
  let v : Int :=
    match requested with
    | some n => if n = 0 then 3000 else n
    | none => 3000
  min (max v 500) 10000

/-- Modelled from the spec's words, for comparison with `enforcedTimeout`:
`clamp(requested_timeout, 500, 10000)` applied directly to the requested
value. -/
def clampSpec (t : Int) : Int :=
  min (max t 500) 10000

/-- The possible outcomes of the TCP connection attempt made by the
`/api/latency` route: the `connect` callback fires first (with the elapsed
milliseconds), the `error` event fires first, or neither happens within the
enforced timeout (the socket `timeout` event fires). -/
inductive ConnOutcome
  | connected (elapsedMs : Int)
  | errorEvent
  | timedOut
deriving DecidableEq, Repr

/-- The body resolved by the route's promise and returned as JSON. -/
structure ProbeResult where
  latency : Option Int
  error : Option String := none
deriving DecidableEq, Repr

/-- The value the `/api/latency` route resolves for each connection outcome:
`resolve({latency})` on connect, `handleFailure("timeout")` on the socket
timeout, `handleFailure("connect-error")` on the socket error event. -/
def probeResult : ConnOutcome → ProbeResult
  | .connected e => { latency := some e }
  | .errorEvent => { latency := none, error := some "connect-error" }
  | .timedOut => { latency := none, error := some "timeout" }

/-- Outcome of the client's `fetch('/api/latency')` call as observed by
`testLatency`: a parsed body with `response.ok`, a parsed body without it,
or a thrown transport-level exception. -/
inductive FetchOutcome
  | ok (body : ProbeResult)
  | notOk (body : ProbeResult)
  | threw
deriving DecidableEq, Repr

/-- The latency-map entry written by `testLatency` once its fetch settles
(`pools/[poolId]/page.tsx`; `StratumLatencyPanel.tsx` has the same logic):
error entry with `body.error ?? 'unreachable'` when the response is not ok or
the body latency is null, success entry with the (already integral, so
`Math.round`-invariant) latency otherwise, and a `network-error` entry when
the fetch itself throws. -/
def testLatencyEntry : FetchOutcome → LatencyState
  | .ok body =>
    match body.latency with
    | none => { latency := none, status := .error, error := some (body.error.getD "unreachable") }
    | some l => { latency := some l, status := .success }
  | .notOk body =>
      { latency := none, status := .error, error := some (body.error.getD "unreachable") }
  | .threw => { latency := none, status := .error, error := some "network-error" }

/-- Untyped JSON value, the shape of an axios `response.data`. -/
inductive Json
  | nul
  | bool (b : Bool)
  | num (n : Int)
  | str (s : String)
  | arr (xs : List Json)
  | obj (fields : List (String × Json))

/-- JavaScript property access `v?.[k]` on a parsed JSON value: only objects
have (own) fields; parsed objects have unique keys. -/
def jsonField : Json → String → Option Json
  | .obj fields, k => fields.lookup k
  | _, _ => none

/-- `Array.isArray` view of a JSON value. -/
def asArray : Json → Option (List Json)
  | .arr xs => some xs
  | _ => none

/-- The pool-list normalisation applied to the `fetchPools()` result by
`usePoolsData.load`: `Array.isArray(response?.pools) ? response.pools :
Array.isArray(response) ? response : []` (`fetchPools` itself returns the
response body unchanged on success). -/
def normalizePools (response : Json) : List Json :=
  match (jsonField response "pools").bind asArray with
  | some ps => ps
  | none =>
    match asArray response with
    | some xs => xs
    | none => []

/-- The state held by the `usePoolsData` hook. -/
structure PoolsState where
  pools : List Json
  loading : Bool
  error : Option String
  lastUpdated : Option Int

/-- What `fetchPools()` delivers to `load`: axios either resolves with a
parsed body, or rejects (network error, non-2xx status, …) and `fetchPools`
re-throws. -/
inductive FetchPoolsResult
  | success (response : Json)
  | failure

/-- `usePoolsData.load`: on success, store the normalised pool list, clear
the error and stamp `lastUpdated`; on failure, keep the previous pools and
set the advisory message; either way `finally` clears `loading`. -/
def load (r : FetchPoolsResult) (now : Int) (s : PoolsState) : PoolsState :=
  match r with
  | .success response =>
      { s with pools := normalizePools response, error := none,
               lastUpdated := some now, loading := false }
  | .failure =>
      { s with error := some "Unable to load pool data.", loading := false }

/-- The slice of a Miningcore `Pool` object read by `StratumLatencyPanel`
(`pool.id`, `pool.coin?.symbol`, `pool.ports`,
`pool.paymentProcessing?.payoutScheme`). Port-map keys stay strings because
the panel parses them with `Number(port)`. -/
structure PanelPool where
  id : String
  coinSymbol : Option String := none
  ports : List (String × PortConfig) := []
  payoutScheme : Option String := none
deriving DecidableEq, Repr

/-- `StratumLocation` from `StratumLatencyPanel.tsx`. -/
structure StratumLocation where
  id : String
  label : String
  host : String
  port : Int
  notes : Option String := none
deriving DecidableEq, Repr

/-- Accumulate the value of a decimal digit string; `none` when empty or a
non-digit appears (so the overall `Number` is `NaN`). -/
def digitsValAux : Option Nat → List Char → Option Nat
  | acc, [] => acc
  | acc, c :: rest =>
    if c.isDigit then digitsValAux (some ((acc.getD 0) * 10 + (c.toNat - '0'.toNat))) rest
    else none

/-- JavaScript `Number(key)` on a port-map key, restricted to optionally
signed decimal integer strings; `none` models `NaN` (non-numeric keys).
`Number('') = 0` is represented by `some 0`; `0` and `NaN` are exactly the
falsy results that `if (!Number(port))` skips. -/
def jsNumber (s : String) : Option Int :=
  match s.data with
  | [] => some 0
  | c :: rest =>
    if c = '-' then (digitsValAux none rest).map (fun n => -(n : Int))
    else (digitsValAux none (c :: rest)).map (fun n => (n : Int))

/-- The push step of `derivedLocations` for one port key (with its index in
that pool's key list): skip when `Number(port)` is falsy, skip when six
entries were already generated, otherwise append the location entry built
from the pool and the key. -/
def genPortEntry (defaultHost : String) (pool : PanelPool) (idx : Nat) (key : String)
    (acc : List StratumLocation) : List StratumLocation :=
  match jsNumber key with
  | none => acc
  | some n =>
    if n = 0 then acc
    else if 6 ≤ acc.length then acc
    else
      let symbol := pool.coinSymbol.getD (strUpper pool.id)
      let cfg := pool.ports.lookup key
      acc ++
        [{ id := pool.id ++ "-" ++ key
           label := symbol ++ " · Port " ++ key ++
             (if idx = 0 then "" else " (#" ++ toString (idx + 1) ++ ")")
           host := defaultHost
           port := n
           notes := some ("Diff " ++
             (match cfg.bind (fun c => c.difficulty) with
              | some d => toString d
              | none => "auto") ++
             (match pool.payoutScheme with
              | some ps => " · " ++ ps
              | none => "")) }]

/-- One pool's pass of the generation loop of `derivedLocations`. -/
def genPool (defaultHost : String) (acc : List StratumLocation) (pool : PanelPool) :
    List StratumLocation :=
  ((pool.ports.map Prod.fst).enum).foldl
    (fun a p => genPortEntry defaultHost pool p.1 p.2 a) acc

/-- The generated branch of `derivedLocations`: fold the pools, then fall
back to the single `default-5108` entry when nothing was generated. -/
def derivedGenerated (pools : List PanelPool) (defaultHost : String) :
    List StratumLocation :=
  let generated := pools.foldl (genPool defaultHost) []
  if generated.isEmpty then
    [{ id := "default-5108", label := "Primary · Port 5108", host := defaultHost,
       port := 5108, notes := some "Low-diff stratum for Jasminer getwork bridge" }]
  else generated

/-- `derivedLocations` from `StratumLatencyPanel.tsx`: an explicit non-empty
`locations` prop wins; otherwise generate from the pools' port maps. -/
def derivedLocations (pools : List PanelPool) (defaultHost : String)
    (locations : Option (List StratumLocation)) : List StratumLocation :=
  match locations with
  | some ls => if 0 < ls.length then ls else derivedGenerated pools defaultHost
  | none => derivedGenerated pools defaultHost

/-- `ConnectionGroup` from `pools/[poolId]/page.tsx`: the rows of one host. -/
structure ConnectionGroup where
  id : String
  label : String
  flag : String
  host : String
  endpoints : List ConnectionRow
deriving DecidableEq, Repr

/-- Stable insertion step for ascending `port` (models the stable JavaScript
`sort((a, b) => a.port - b.port)`): a new row goes after every row whose port
is less than or equal to its own. -/
def insertByPort (r : ConnectionRow) : List ConnectionRow → List ConnectionRow
  | [] => [r]
  | x :: xs => if x.port ≤ r.port then x :: insertByPort r xs else r :: x :: xs

/-- Stable sort by ascending `port`. -/
def sortByPort (rs : List ConnectionRow) : List ConnectionRow :=
  rs.foldl (fun acc r => insertByPort r acc) []

/-- One step of the host bucketing of the `connectionGroups` memo: a
JavaScript `Map` keyed by host keeps first-encounter insertion order, and
each bucket keeps its rows in encounter order. -/
def insertBucket (r : ConnectionRow) :
    List (String × List ConnectionRow) → List (String × List ConnectionRow)
  | [] => [(r.host, [r])]
  | (h, rs) :: rest =>
    if h = r.host then (h, rs ++ [r]) :: rest else (h, rs) :: insertBucket r rest

/-- `connectionGroups` from `pools/[poolId]/page.tsx`: bucket rows by host
(the group takes `id`, `label`, `flag` and `host` from the bucket key and its
first row) and sort each bucket's endpoints by port. -/
def connectionGroupsOf (rows : List ConnectionRow) : List ConnectionGroup :=
  (rows.foldl (fun acc r => insertBucket r acc) []).map (fun b =>
    { id := b.1
      host := b.1
      label := ((b.2.head?).map (fun r => r.label)).getD ""
      flag := ((b.2.head?).map (fun r => r.flag)).getD ""
      endpoints := sortByPort b.2 })

/-- `fastestEndpointFor` from `pools/[poolId]/page.tsx` (non-null group):
best successful latency within the group, else the group's first endpoint. -/
def fastestEndpointFor (m : LatencyMap) (g : ConnectionGroup) : Option ConnectionRow :=
  ((bestLatAux m g.endpoints none).map Prod.fst).orElse (fun _ => g.endpoints.head?)

/-- `endpoint.profileName?.toLowerCase().includes('mid')` from
`pickEndpointForGroup`. -/
def isMidProfile (e : ConnectionRow) : Bool :=
  match e.profileName with
  | some p => strIncludes (strLower p) "mid"
  | none => false

/-- `endpoint.difficulty === null || endpoint.varDiffMin !== null` from
`pickEndpointForGroup`. -/
def isVarDiffRow (e : ConnectionRow) : Bool :=
  e.difficulty.isNone || e.varDiffMin.isSome

/-- `pickEndpointForGroup` from `pools/[poolId]/page.tsx` (non-null group):
the group's copy of the default endpoint, else a `mid` profile endpoint,
else a variable-difficulty endpoint, else `fastestEndpointFor`. -/
def pickEndpointForGroup (defaultRow : Option ConnectionRow) (m : LatencyMap)
    (g : ConnectionGroup) : Option ConnectionRow :=
  let fromDefault : Option ConnectionRow :=
    match defaultRow with
    | some d => if d.host = g.host then g.endpoints.find? (fun e => e.id == d.id) else none
    | none => none
  match fromDefault with
  | some e => some e
  | none =>
    match g.endpoints.find? isMidProfile with
    | some e => some e
    | none =>
      match g.endpoints.find? isVarDiffRow with
      | some e => some e
      | none => fastestEndpointFor m g

/-- The selection state of the pool detail page: the two selected ids and the
two manual-selection refs. -/
structure SelState where
  selectedGroupId : Option String := none
  selectedEndpointId : Option String := none
  manualGroup : Bool := false
  manualEndpoint : Bool := false
deriving DecidableEq, Repr

/-- The group reconciliation effect (`useEffect`, page.tsx lines 656-675). -/
def reconcileGroups (groups : List ConnectionGroup)
    (bestLatencyGroup defaultGroup : Option ConnectionGroup) (s : SelState) : SelState :=
  if groups.isEmpty then
    { selectedGroupId := none, selectedEndpointId := none,
      manualGroup := false, manualEndpoint := false }
  else
    let stillExists :=
      match s.selectedGroupId with
      | some gid => groups.any (fun g => g.id == gid)
      | none => false
    if !s.manualGroup || !stillExists then
      let fallbackGroup :=
        (bestLatencyGroup.orElse (fun _ => defaultGroup)).orElse (fun _ => groups.head?)
      let nextId := fallbackGroup.map (fun g => g.id)
      if nextId ≠ s.selectedGroupId then
        { s with manualGroup := false, selectedGroupId := nextId }
      else s
    else s

/-- The group the endpoint reconciliation effect operates on:
`selectedGroup ?? bestLatencyGroup ?? defaultGroup ?? connectionGroups[0] ?? null`. -/
def activeGroup (groups : List ConnectionGroup)
    (bestLatencyGroup defaultGroup : Option ConnectionGroup) (s : SelState) :
    Option ConnectionGroup :=
  (((s.selectedGroupId.bind (fun gid => groups.find? (fun g => g.id == gid))).orElse
      (fun _ => bestLatencyGroup)).orElse
    (fun _ => defaultGroup)).orElse (fun _ => groups.head?)

/-- The endpoint reconciliation effect (`useEffect`, page.tsx lines 677-710). -/
def reconcileEndpoint (groups : List ConnectionGroup)
    (bestLatencyGroup defaultGroup : Option ConnectionGroup)
    (defaultRow : Option ConnectionRow) (m : LatencyMap) (s : SelState) : SelState :=
  match activeGroup groups bestLatencyGroup defaultGroup s with
  | none => { s with manualEndpoint := false, selectedEndpointId := none }
  | some g =>
    let stillExists :=
      match s.selectedEndpointId with
      | some eid => g.endpoints.any (fun e => e.id == eid)
      | none => false
    if !s.manualEndpoint || !stillExists then
      let nextId := (pickEndpointForGroup defaultRow m g).map (fun e => e.id)
      if nextId ≠ s.selectedEndpointId then
        { s with manualEndpoint := false, selectedEndpointId := nextId }
      else s
    else s

/-- `groupByHost.get(host)` for an optional host. -/
def groupForHost (groups : List ConnectionGroup) (h : Option String) :
    Option ConnectionGroup :=
  h.bind (fun hh => groups.find? (fun g => g.host == hh))

/-- One data refresh of the pool detail page: derive the groups, the default
and best-latency rows and groups from the refreshed rows and the latency map,
then run the group reconciliation effect followed by the endpoint
reconciliation effect (React runs the dependent effect again on the updated
state, so the composition is the settled state). -/
def refresh (rows : List ConnectionRow) (m : LatencyMap) (s : SelState) : SelState :=
  let groups := connectionGroupsOf rows
  let dRow := defaultEndpointRow rows
  let bRow := bestLatencyRow rows m
  let dGroup := groupForHost groups (dRow.map (fun r => r.host))
  let bGroup := groupForHost groups (bRow.map (fun r => r.host))
  reconcileEndpoint groups bGroup dGroup dRow m (reconcileGroups groups bGroup dGroup s)

/-- `selectEndpoint` from `pools/[poolId]/page.tsx`: a manual endpoint pick
sets both manual refs and both selected ids. -/
def selectEndpoint (g : ConnectionGroup) (e : ConnectionRow) (s : SelState) : SelState :=
  { s with manualGroup := true, manualEndpoint := true,
           selectedGroupId := some g.id, selectedEndpointId := some e.id }

/-- The C1 example port map `{3333: {}, 3355: {name: "Mid"}, 3377: {}}`. -/
def c1Ports : List (Int × PortConfig) :=
  [(3333, {}), (3355, { name := some "Mid" }), (3377, {})]

/-- The C5 example port map `{100: {difficulty: 4096}, 200: {difficulty: 1024}}`. -/
def c5Ports : List (Int × PortConfig) :=
  [(100, { difficulty := some 4096 }), (200, { difficulty := some 1024 })]

/-- Endpoint `A` of the C4 example. -/
def c4RowA : ConnectionRow :=
  { id := "A", label := "Global", flag := "🌐", host := "pool.local", port := 1,
    endpoint := "stratum+tcp://pool.local:1" }

/-- Endpoint `B` of the C4 example. -/
def c4RowB : ConnectionRow :=
  { id := "B", label := "Global", flag := "🌐", host := "pool.local", port := 2,
    endpoint := "stratum+tcp://pool.local:2" }

/-- Endpoint `C` of the C4 example. -/
def c4RowC : ConnectionRow :=
  { id := "C", label := "Global", flag := "🌐", host := "pool.local", port := 3,
    endpoint := "stratum+tcp://pool.local:3" }

/-- The C4 example endpoint list. -/
def c4Rows : List ConnectionRow := [c4RowA, c4RowB, c4RowC]

/-- The C4 example samples `{A: success 80, B: success 40, C: error}`. -/
def c4Samples : LatencyMap :=
  [("A", { latency := some 80, status := .success }),
   ("B", { latency := some 40, status := .success }),
   ("C", { latency := none, status := .error, error := some "connect-error" })]

/-- C2 example port map: one host, a low fixed-difficulty port and a high
fixed-difficulty port. -/
def c2Ports : List (Int × PortConfig) :=
  [(4444, { difficulty := some 1000 }), (5555, { difficulty := some 5000 })]

/-- C2 example rows. -/
def c2Rows : List ConnectionRow := connectionRowsOf "pool.local" c2Ports

/-- C2 example samples: the high-difficulty port has the better latency. -/
def c2Map : LatencyMap :=
  [("pool.local-4444", { latency := some 100, status := .success }),
   ("pool.local-5555", { latency := some 40, status := .success })]

/-- The single host group derived from `c2Rows`. -/
def c2Group : ConnectionGroup :=
  { id := "pool.local", host := "pool.local", label := "Global", flag := "🌐",
    endpoints := [rowOfEntry "pool.local" (4444, { difficulty := some 1000 }),
                  rowOfEntry "pool.local" (5555, { difficulty := some 5000 })] }

/-- C6 example port map. -/
def c6Ports : List (Int × PortConfig) :=
  [(7777, { difficulty := some 5000 }), (8888, { difficulty := some 6000 })]

/-- C6 example rows (both ports present). -/
def c6Rows : List ConnectionRow := connectionRowsOf "pool.local" c6Ports

/-- C6 example rows after port 7777 disappeared from the port map. -/
def c6RowsGone : List ConnectionRow :=
  connectionRowsOf "pool.local" [(8888, { difficulty := some 6000 })]

/-- C6 example samples: the other port has the better latency. -/
def c6Map : LatencyMap :=
  [("pool.local-7777", { latency := some 90, status := .success }),
   ("pool.local-8888", { latency := some 30, status := .success })]

/-- C6 example state after the user manually selected port 7777. -/
def c6State : SelState :=
  { selectedGroupId := some "pool.local", selectedEndpointId := some "pool.local-7777",
    manualGroup := true, manualEndpoint := true }

/-- The single host group derived from `c6Rows`. -/
def c6Group : ConnectionGroup :=
  { id := "pool.local", host := "pool.local", label := "Global", flag := "🌐",
    endpoints := [rowOfEntry "pool.local" (7777, { difficulty := some 5000 }),
                  rowOfEntry "pool.local" (8888, { difficulty := some 6000 })] }

/-- The single host group derived from `c6RowsGone`. -/
def c6GroupGone : ConnectionGroup :=
  { id := "pool.local", host := "pool.local", label := "Global", flag := "🌐",
    endpoints := [rowOfEntry "pool.local" (8888, { difficulty := some 6000 })] }

/-- C9 counterexample pool: a single port-map key `"-1"`. -/
def c9Pools : List PanelPool := [{ id := "p", ports := [("-1", {})] }]

/-- C9 pool whose only port-map key is non-numeric. -/
def c9NoValid : List PanelPool := [{ id := "p", ports := [("x", {})] }]

/-- Characterization of the `bestLatencyRow` loop: any returned pair either is
the untouched accumulator (and no list latency beats it) or comes from the
list, carries a successful sample, strictly beats every earlier successful
sample and the initial accumulator, and weakly beats every successful sample
of the list. -/
theorem bestLatAux_spec (m : LatencyMap) :
    ∀ (rows : List ConnectionRow) (acc : Option (ConnectionRow × Int))
      (r : ConnectionRow) (l : Int),
      bestLatAux m rows acc = some (r, l) →
      ((acc = some (r, l) ∨
          ∃ pre post, rows = pre ++ r :: post ∧ successLatency m r = some l ∧
            (∀ r' ∈ pre, ∀ l', successLatency m r' = some l' → l < l') ∧
            (∀ rb b, acc = some (rb, b) → l < b)) ∧
        (∀ r' ∈ rows, ∀ l', successLatency m r' = some l' → l ≤ l')) := by
  intro rows
  induction rows with
  | nil =>
      intro acc r l h
      simp only [bestLatAux] at h
      exact ⟨Or.inl h, by simp⟩
  | cons row rest ih =>
      intro acc r l h
      simp only [bestLatAux] at h
      cases hsl : successLatency m row with
      | none =>
          have hstep : bestStep m acc row = acc := by simp [bestStep, hsl]
          rw [hstep] at h
          obtain ⟨h1, hmin⟩ := ih acc r l h
          refine ⟨?_, ?_⟩
          · rcases h1 with hacc | ⟨pre, post, hrows, hsucc, hpre, haccc⟩
            · exact Or.inl hacc
            · refine Or.inr ⟨row :: pre, post, by rw [hrows]; rfl, hsucc, ?_, haccc⟩
              intro r' hr' l' hl'
              rcases List.mem_cons.mp hr' with h' | h'
              · subst h'; rw [hsl] at hl'; cases hl'
              · exact hpre r' h' l' hl'
          · intro r' hr' l' hl'
            rcases List.mem_cons.mp hr' with h' | h'
            · subst h'; rw [hsl] at hl'; cases hl'
            · exact hmin r' h' l' hl'
      | some lr =>
          cases acc with
          | none =>
              have hstep : bestStep m none row = some (row, lr) := by
                simp [bestStep, hsl]
              rw [hstep] at h
              obtain ⟨h1, hmin⟩ := ih (some (row, lr)) r l h
              refine ⟨?_, ?_⟩
              · rcases h1 with hacc | ⟨pre, post, hrows, hsucc, hpre, haccc⟩
                · have hpair := Option.some.inj hacc
                  have hrow : row = r := congrArg Prod.fst hpair
                  have hlr : lr = l := congrArg Prod.snd hpair
                  subst hrow; subst hlr
                  refine Or.inr ⟨[], rest, rfl, hsl, by simp, by simp⟩
                · have hlt : l < lr := haccc row lr rfl
                  refine Or.inr ⟨row :: pre, post, by rw [hrows]; rfl, hsucc, ?_, by simp⟩
                  intro r' hr' l' hl'
                  rcases List.mem_cons.mp hr' with h' | h'
                  · subst h'; rw [hsl] at hl'
                    exact (Option.some.inj hl') ▸ hlt
                  · exact hpre r' h' l' hl'
              · intro r' hr' l' hl'
                rcases List.mem_cons.mp hr' with h' | h'
                · subst h'
                  rw [hsl] at hl'
                  have hl'eq : lr = l' := Option.some.inj hl'
                  rcases h1 with hacc | ⟨pre, post, _, _, _, haccc⟩
                  · have hpair := Option.some.inj hacc
                    have hlr : lr = l := congrArg Prod.snd hpair
                    omega
                  · have := haccc r' lr rfl
                    omega
                · exact hmin r' h' l' hl'
          | some p =>
              obtain ⟨rb, bl⟩ := p
              by_cases hlt : lr < bl
              · have hstep : bestStep m (some (rb, bl)) row = some (row, lr) := by
                  simp [bestStep, hsl, hlt]
                rw [hstep] at h
                obtain ⟨h1, hmin⟩ := ih (some (row, lr)) r l h
                refine ⟨?_, ?_⟩
                · rcases h1 with hacc | ⟨pre, post, hrows, hsucc, hpre, haccc⟩
                  · have hpair := Option.some.inj hacc
                    have hrow : row = r := congrArg Prod.fst hpair
                    have hlr : lr = l := congrArg Prod.snd hpair
                    subst hrow; subst hlr
                    refine Or.inr ⟨[], rest, rfl, hsl, by simp, ?_⟩
                    intro rb' b' hb'
                    have hpair' := Option.some.inj hb'
                    have : bl = b' := congrArg Prod.snd hpair'
                    omega
                  · have hltlr : l < lr := haccc row lr rfl
                    refine Or.inr ⟨row :: pre, post, by rw [hrows]; rfl, hsucc, ?_, ?_⟩
                    · intro r' hr' l' hl'
                      rcases List.mem_cons.mp hr' with h' | h'
                      · subst h'; rw [hsl] at hl'
                        have : lr = l' := Option.some.inj hl'
                        omega
                      · exact hpre r' h' l' hl'
                    · intro rb' b' hb'
                      have hpair' := Option.some.inj hb'
                      have : bl = b' := congrArg Prod.snd hpair'
                      omega
                · intro r' hr' l' hl'
                  rcases List.mem_cons.mp hr' with h' | h'
                  · subst h'
                    rw [hsl] at hl'
                    have hl'eq : lr = l' := Option.some.inj hl'
                    rcases h1 with hacc | ⟨_, _, _, _, _, haccc⟩
                    · have hpair := Option.some.inj hacc
                      have : lr = l := congrArg Prod.snd hpair
                      omega
                    · have := haccc r' lr rfl
                      omega
                  · exact hmin r' h' l' hl'
              · have hstep : bestStep m (some (rb, bl)) row = some (rb, bl) := by
                  simp [bestStep, hsl, hlt]
                rw [hstep] at h
                obtain ⟨h1, hmin⟩ := ih (some (rb, bl)) r l h
                refine ⟨?_, ?_⟩
                · rcases h1 with hacc | ⟨pre, post, hrows, hsucc, hpre, haccc⟩
                  · exact Or.inl hacc
                  · have hlbl : l < bl := haccc rb bl rfl
                    refine Or.inr ⟨row :: pre, post, by rw [hrows]; rfl, hsucc, ?_, ?_⟩
                    · intro r' hr' l' hl'
                      rcases List.mem_cons.mp hr' with h' | h'
                      · subst h'; rw [hsl] at hl'
                        have : lr = l' := Option.some.inj hl'
                        omega
                      · exact hpre r' h' l' hl'
                    · intro rb' b' hb'
                      have hpair' := Option.some.inj hb'
                      have : bl = b' := congrArg Prod.snd hpair'
                      omega
                · intro r' hr' l' hl'
                  rcases List.mem_cons.mp hr' with h' | h'
                  · subst h'
                    rw [hsl] at hl'
                    have hl'eq : lr = l' := Option.some.inj hl'
                    rcases h1 with hacc | ⟨_, _, _, _, _, haccc⟩
                    · have hpair := Option.some.inj hacc
                      have : bl = l := congrArg Prod.snd hpair
                      omega
                    · have := haccc rb bl rfl
                      omega
                  · exact hmin r' h' l' hl'

/-- The `bestLatencyRow` loop produces a result as soon as its accumulator is
set or some row has a successful sample. -/
theorem bestLatAux_isSome (m : LatencyMap) :
    ∀ (rows : List ConnectionRow) (acc : Option (ConnectionRow × Int)),
      (acc.isSome = true ∨ ∃ r ∈ rows, (successLatency m r).isSome = true) →
      (bestLatAux m rows acc).isSome = true := by
  intro rows
  induction rows with
  | nil =>
      intro acc h
      rcases h with h | ⟨r, hr, _⟩
      · simpa [bestLatAux] using h
      · cases hr
  | cons row rest ih =>
      intro acc h
      simp only [bestLatAux]
      apply ih
      cases hsl : successLatency m row with
      | some lr =>
          left
          cases acc with
          | none => simp [bestStep, hsl]
          | some p =>
              obtain ⟨b, bl⟩ := p
              simp only [bestStep, hsl]
              split <;> simp
      | none =>
          have hstep : bestStep m acc row = acc := by simp [bestStep, hsl]
          rw [hstep]
          rcases h with h | ⟨r, hr, hsome⟩
          · exact Or.inl h
          · rcases List.mem_cons.mp hr with h' | h'
            · subst h'; rw [hsl] at hsome; simp at hsome
            · exact Or.inr ⟨r, h', hsome⟩

/-- `fastestEndpointFor` only returns members of the group. -/
theorem fastestEndpointFor_mem (m : LatencyMap) (g : ConnectionGroup) (e : ConnectionRow)
    (h : fastestEndpointFor m g = some e) : e ∈ g.endpoints := by
  unfold fastestEndpointFor at h
  cases hb : bestLatAux m g.endpoints none with
  | some p =>
      obtain ⟨r, l⟩ := p
      rw [hb] at h
      have hre : r = e := by simpa [Option.orElse] using h
      subst hre
      obtain ⟨h1, _⟩ := bestLatAux_spec m g.endpoints none r l hb
      rcases h1 with habs | ⟨pre, post, hrows, _, _, _⟩
      · cases habs
      · rw [hrows]
        exact List.mem_append.mpr (Or.inr (List.mem_cons_self r post))
  | none =>
      rw [hb] at h
      have hh : g.endpoints.head? = some e := by simpa [Option.orElse] using h
      cases hl : g.endpoints with
      | nil => rw [hl] at hh; cases hh
      | cons a as =>
          rw [hl] at hh
          have hae : a = e := by simpa using hh
          subst hae
          exact List.mem_cons_self a as

/-- `pickEndpointForGroup` only returns members of the group. -/
theorem pickEndpointForGroup_mem (dRow : Option ConnectionRow) (m : LatencyMap)
    (g : ConnectionGroup) (e : ConnectionRow)
    (h : pickEndpointForGroup dRow m g = some e) : e ∈ g.endpoints := by
  simp only [pickEndpointForGroup] at h
  split at h
  · rename_i e' heq
    have hee : e' = e := Option.some.inj h
    subst hee
    cases dRow with
    | none => cases heq
    | some d =>
        dsimp only at heq
        by_cases hh : d.host = g.host
        · rw [if_pos hh] at heq
          exact List.mem_of_find?_eq_some heq
        · rw [if_neg hh] at heq
          cases heq
  · split at h
    · rename_i e' heq
      have hee : e' = e := Option.some.inj h
      subst hee
      exact List.mem_of_find?_eq_some heq
    · split at h
      · rename_i e' heq
        have hee : e' = e := Option.some.inj h
        subst hee
        exact List.mem_of_find?_eq_some heq
      · exact fastestEndpointFor_mem m g e h

/-- C1 counterexample: on the port map `{3333: {}, 3355: {name: "Mid"}, 3377: {}}`
the default-endpoint selection is NOT port 3355 — the name `"Mid"` does not
contain any of the markers `midrange`/`midtier`/`medium` that
`defaultEndpointRow` actually tests, so the selection falls through to the
first row, port 3333. -/
theorem c1_counterexample :
    ((defaultEndpointRow (connectionRowsOf "pool.local" c1Ports)).map
      (fun r => r.port)) ≠ some 3355 := by decide

/-- C1 (amended): the default-endpoint selection prefers the first endpoint
whose condensed (lowercased, alphanumeric-only) port-config name contains
`midrange`, `midtier` or `medium`; a bare `"Mid"` matches none of these, so
the example map `{3333: {}, 3355: {name: "Mid"}, 3377: {}}` selects
port 3333. -/
theorem c1_mid_marker_selection :
    (∀ (rows : List ConnectionRow) (r : ConnectionRow),
        rows.find? isMidTierRow = some r → defaultEndpointRow rows = some r) ∧
    ((defaultEndpointRow (connectionRowsOf "pool.local" c1Ports)).map
      (fun r => r.port)) = some 3333 := by
  refine ⟨?_, by decide⟩
  intro rows r h
  cases rows with
  | nil => simp at h
  | cons a as => simp [defaultEndpointRow, h]

/-- C1 witness: a port whose config name condenses to `midrange` is selected
by `defaultEndpointRow`. -/
theorem c1_mid_marker_selection_witness :
    defaultEndpointRow (connectionRowsOf "pool.local"
        [(9000, { name := some "Mid Range" }), (9001, {})])
      = some (rowOfEntry "pool.local" (9000, { name := some "Mid Range" })) :=
  c1_mid_marker_selection.1 _ _ (by decide)

/-- C3 counterexample: for a requested timeout of `0` the route enforces the
default `3000` ms, not `clamp(0, 500, 10000) = 500` ms as the claim states. -/
theorem c3_counterexample :
    enforcedTimeout (some 0) ≠ clampSpec 0 ∧
    enforcedTimeout (some 0) = 3000 ∧ clampSpec 0 = 500 := by decide

/-- C3 (amended): for every nonzero numeric requested timeout the enforced
timeout is `clamp(requested, 500, 10000)`; a zero, missing or non-numeric
requested timeout is first replaced by the default `3000` (which is its own
clamp), because `Number(payload.timeout) || 3000` treats `0` and `NaN` as
falsy. -/
theorem c3_timeout_clamp :
    (∀ t : Int, t ≠ 0 → enforcedTimeout (some t) = clampSpec t) ∧
    enforcedTimeout (some 0) = 3000 ∧ enforcedTimeout none = 3000 := by
  refine ⟨?_, by decide, by decide⟩
  intro t ht
  simp [enforcedTimeout, clampSpec, ht]

/-- C3 witness: concrete nonzero requested values, below, inside and above
the clamping range. -/
theorem c3_timeout_clamp_witness :
    enforcedTimeout (some 100) = clampSpec 100 ∧
    enforcedTimeout (some 4000) = clampSpec 4000 ∧
    enforcedTimeout (some 60000) = clampSpec 60000 :=
  ⟨c3_timeout_clamp.1 100 (by decide), c3_timeout_clamp.1 4000 (by decide),
   c3_timeout_clamp.1 60000 (by decide)⟩

/-- C4: a row returned by `bestLatencyRow` carries a successful sample whose
latency is minimal among all successful samples, every strictly earlier row's
successful sample is strictly larger (ties go to the first-encountered row),
rows without a successful sample are never returned (the returned row always
has one), a result exists whenever some row has a successful sample, and on
the example `{A: success 80, B: success 40, C: error}` the chosen endpoint
is `B`. -/
theorem c4_best_latency_selection :
    (∀ (rows : List ConnectionRow) (m : LatencyMap) (r : ConnectionRow),
        bestLatencyRow rows m = some r →
        ∃ l pre post, rows = pre ++ r :: post ∧ successLatency m r = some l ∧
          (∀ r' ∈ rows, ∀ l', successLatency m r' = some l' → l ≤ l') ∧
          (∀ r' ∈ pre, ∀ l', successLatency m r' = some l' → l < l')) ∧
    (∀ (rows : List ConnectionRow) (m : LatencyMap),
        (∃ r ∈ rows, (successLatency m r).isSome = true) →
        (bestLatencyRow rows m).isSome = true) ∧
    (bestLatencyRow c4Rows c4Samples).map (fun r => r.id) = some "B" := by
  refine ⟨?_, ?_, by decide⟩
  · intro rows m r h
    unfold bestLatencyRow at h
    cases hb : bestLatAux m rows none with
    | none => rw [hb] at h; cases h
    | some p =>
        obtain ⟨r0, l⟩ := p
        rw [hb] at h
        have hr0 : r0 = r := by simpa using h
        subst hr0
        obtain ⟨h1, hmin⟩ := bestLatAux_spec m rows none r0 l hb
        rcases h1 with habs | ⟨pre, post, hrows, hsucc, hpre, _⟩
        · cases habs
        · exact ⟨l, pre, post, hrows, hsucc, hmin, hpre⟩
  · intro rows m hex
    unfold bestLatencyRow
    have hs := bestLatAux_isSome m rows none (Or.inr hex)
    cases hb : bestLatAux m rows none with
    | none => rw [hb] at hs; simp at hs
    | some p => simp

/-- C4 witness: the example instantiation of both universally quantified
parts. -/
theorem c4_best_latency_selection_witness :
    (∃ l pre post, c4Rows = pre ++ c4RowB :: post ∧
        successLatency c4Samples c4RowB = some l ∧
        (∀ r' ∈ c4Rows, ∀ l', successLatency c4Samples r' = some l' → l ≤ l') ∧
        (∀ r' ∈ pre, ∀ l', successLatency c4Samples r' = some l' → l < l')) ∧
    (bestLatencyRow c4Rows c4Samples).isSome = true :=
  ⟨c4_best_latency_selection.1 c4Rows c4Samples c4RowB (by decide),
   c4_best_latency_selection.2.1 c4Rows c4Samples ⟨c4RowA, by decide, by decide⟩⟩

/-- C5: when no endpoint matches the mid-tier marker, `defaultEndpointRow`
returns the first endpoint whose effective difficulty (fixed difficulty, else
variable-difficulty minimum) lies in `(0, 2048]`, and otherwise the first
endpoint of the list; the range test is exactly that arithmetic condition;
and the example map `{100: {difficulty: 4096}, 200: {difficulty: 1024}}`
selects port 200. -/
theorem c5_default_difficulty_preference :
    (∀ r : ConnectionRow,
        inPreferredDiffRange r = true ↔
          ∃ d, effectiveDiff r = some d ∧ 0 < d ∧ d ≤ 2048) ∧
    (∀ (rows : List ConnectionRow) (r : ConnectionRow),
        rows.find? isMidTierRow = none →
        rows.find? inPreferredDiffRange = some r →
        defaultEndpointRow rows = some r) ∧
    (∀ rows : List ConnectionRow,
        rows.find? isMidTierRow = none →
        rows.find? inPreferredDiffRange = none →
        defaultEndpointRow rows = rows.head?) ∧
    ((defaultEndpointRow (connectionRowsOf "pool.local" c5Ports)).map
      (fun r => r.port)) = some 200 := by
  refine ⟨?_, ?_, ?_, by decide⟩
  · intro r
    unfold inPreferredDiffRange
    cases hd : effectiveDiff r with
    | none => simp
    | some d =>
        simp only [Bool.and_eq_true, decide_eq_true_eq]
        constructor
        · rintro ⟨h1, h2⟩
          exact ⟨d, rfl, h1, h2⟩
        · rintro ⟨d', hd', h1, h2⟩
          cases hd'
          exact ⟨h1, h2⟩
  · intro rows r h1 h2
    cases rows with
    | nil => simp at h2
    | cons a as => simp [defaultEndpointRow, h1, h2]
  · intro rows h1 h2
    cases rows with
    | nil => simp [defaultEndpointRow]
    | cons a as => simp [defaultEndpointRow, h1, h2]

/-- C5 witness: instantiations of the three conditional parts. -/
theorem c5_default_difficulty_preference_witness :
    (inPreferredDiffRange (rowOfEntry "pool.local" (200, { difficulty := some 1024 })) = true
      ↔ ∃ d, effectiveDiff (rowOfEntry "pool.local" (200, { difficulty := some 1024 }))
          = some d ∧ 0 < d ∧ d ≤ 2048) ∧
    defaultEndpointRow (connectionRowsOf "pool.local" c5Ports)
      = some (rowOfEntry "pool.local" (200, { difficulty := some 1024 })) ∧
    defaultEndpointRow (connectionRowsOf "pool.local" c1Ports)
      = (connectionRowsOf "pool.local" c1Ports).head? :=
  ⟨c5_default_difficulty_preference.1 _,
   c5_default_difficulty_preference.2.1 _ _ (by decide) (by decide),
   c5_default_difficulty_preference.2.2.1 _ (by decide) (by decide)⟩

/-- C7: every latency-probe outcome is a returned value; the returned latency
is `null` exactly when an error is set; the connect, timeout and error-event
outcomes yield exactly the specified bodies; and a transport-level exception
in the client's fetch yields a `network-error` entry. -/
theorem c7_probe_error_handling :
    (∀ o : ConnOutcome,
        ((probeResult o).latency = none ↔ (probeResult o).error.isSome = true)) ∧
    (∀ e : Int, probeResult (.connected e) = { latency := some e, error := none }) ∧
    probeResult .errorEvent = { latency := none, error := some "connect-error" } ∧
    probeResult .timedOut = { latency := none, error := some "timeout" } ∧
    testLatencyEntry .threw
      = { latency := none, status := .error, error := some "network-error" } := by
  refine ⟨?_, fun e => rfl, rfl, rfl, rfl⟩
  intro o
  cases o <;> simp [probeResult]

/-- C8: the pool-list normalisation of the fetch pipeline returns a bare
array unchanged, returns the `pools` field of a `{pools: [...]}` body, and
returns the empty list for every other body shape. -/
theorem c8_fetchPools_normalization :
    (∀ xs : List Json, normalizePools (Json.arr xs) = xs) ∧
    (∀ (fields : List (String × Json)) (xs : List Json),
        fields.lookup "pools" = some (Json.arr xs) →
        normalizePools (Json.obj fields) = xs) ∧
    (∀ v : Json, asArray v = none → (jsonField v "pools").bind asArray = none →
        normalizePools v = []) := by
  refine ⟨?_, ?_, ?_⟩
  · intro xs; rfl
  · intro fields xs h
    simp [normalizePools, jsonField, h, asArray]
  · intro v h1 h2
    simp [normalizePools, h1, h2]

/-- C8 witness: a concrete `{pools: [...]}` body and a concrete scalar body. -/
theorem c8_fetchPools_normalization_witness :
    normalizePools (Json.obj [("pools", Json.arr [Json.num 1, Json.num 2])])
      = [Json.num 1, Json.num 2] ∧
    normalizePools Json.nul = [] :=
  ⟨c8_fetchPools_normalization.2.1 _ _ rfl,
   c8_fetchPools_normalization.2.2 Json.nul rfl rfl⟩

/-- C10: a failed fetch leaves the displayed pools unchanged, sets the
advisory message and clears the loading flag (and does not touch the
last-updated stamp); a successful fetch clears the error, stamps
last-updated and clears the loading flag. -/
theorem c10_load_error_handling :
    (∀ (now : Int) (s : PoolsState),
        (load .failure now s).pools = s.pools ∧
        (load .failure now s).error = some "Unable to load pool data." ∧
        (load .failure now s).loading = false ∧
        (load .failure now s).lastUpdated = s.lastUpdated) ∧
    (∀ (resp : Json) (now : Int) (s : PoolsState),
        (load (.success resp) now s).error = none ∧
        (load (.success resp) now s).lastUpdated = some now ∧
        (load (.success resp) now s).loading = false) :=
  ⟨fun _ _ => ⟨rfl, rfl, rfl, rfl⟩, fun _ _ _ => ⟨rfl, rfl, rfl⟩⟩

/-- The generation step never grows the list beyond six entries. -/
theorem genPortEntry_length_le (dh : String) (pool : PanelPool) (idx : Nat) (key : String)
    (acc : List StratumLocation) (h : acc.length ≤ 6) :
    (genPortEntry dh pool idx key acc).length ≤ 6 := by
  unfold genPortEntry
  cases hjs : jsNumber key with
  | none => exact h
  | some n =>
      dsimp only
      split
      · exact h
      · split
        · exact h
        · rename_i hn hl
          simp only [List.length_append, List.length_cons, List.length_nil]
          omega

/-- The generation step only appends entries with a nonzero port. -/
theorem genPortEntry_port_ne (dh : String) (pool : PanelPool) (idx : Nat) (key : String)
    (acc : List StratumLocation) (h : ∀ loc ∈ acc, loc.port ≠ 0) :
    ∀ loc ∈ genPortEntry dh pool idx key acc, loc.port ≠ 0 := by
  unfold genPortEntry
  cases hjs : jsNumber key with
  | none => exact h
  | some n =>
      dsimp only
      split
      · exact h
      · split
        · exact h
        · rename_i hn hl
          intro loc hloc
          rcases List.mem_append.mp hloc with hm | hm
          · exact h loc hm
          · simp only [List.mem_singleton] at hm
            subst hm
            exact hn

/-- A key whose JavaScript numeric value is falsy is skipped. -/
theorem genPortEntry_falsy (dh : String) (pool : PanelPool) (idx : Nat) (key : String)
    (acc : List StratumLocation)
    (h : jsNumber key = none ∨ jsNumber key = some 0) :
    genPortEntry dh pool idx key acc = acc := by
  rcases h with h | h <;> simp [genPortEntry, h]

/-- Six-entry bound, preserved through one pool's key fold. -/
theorem genFold_length_le (dh : String) (pool : PanelPool) :
    ∀ (l : List (Nat × String)) (acc : List StratumLocation), acc.length ≤ 6 →
      (l.foldl (fun a p => genPortEntry dh pool p.1 p.2 a) acc).length ≤ 6
  | [], _, h => h
  | p :: rest, acc, h =>
      genFold_length_le dh pool rest _ (genPortEntry_length_le dh pool p.1 p.2 acc h)

/-- Nonzero ports, preserved through one pool's key fold. -/
theorem genFold_port_ne (dh : String) (pool : PanelPool) :
    ∀ (l : List (Nat × String)) (acc : List StratumLocation),
      (∀ loc ∈ acc, loc.port ≠ 0) →
      ∀ loc ∈ l.foldl (fun a p => genPortEntry dh pool p.1 p.2 a) acc, loc.port ≠ 0
  | [], _, h => h
  | p :: rest, acc, h =>
      genFold_port_ne dh pool rest _ (genPortEntry_port_ne dh pool p.1 p.2 acc h)

/-- A fold over keys that are all falsy leaves the accumulator unchanged. -/
theorem genFold_falsy (dh : String) (pool : PanelPool) :
    ∀ (l : List (Nat × String)) (acc : List StratumLocation),
      (∀ p ∈ l, jsNumber p.2 = none ∨ jsNumber p.2 = some 0) →
      l.foldl (fun a p => genPortEntry dh pool p.1 p.2 a) acc = acc
  | [], _, _ => rfl
  | p :: rest, acc, h => by
      rw [List.foldl_cons, genPortEntry_falsy dh pool p.1 p.2 acc (h p (List.mem_cons_self p rest))]
      exact genFold_falsy dh pool rest acc (fun q hq => h q (List.mem_cons_of_mem p hq))

/-- The second component of an enumerated pair is a member of the base list. -/
theorem snd_mem_of_mem_enumFrom {α : Type} :
    ∀ (l : List α) (i : Nat) (p : Nat × α), p ∈ l.enumFrom i → p.2 ∈ l
  | [], _, _, h => absurd h (List.not_mem_nil _)
  | a :: as, i, p, h => by
      rcases List.mem_cons.mp h with h' | h'
      · subst h'; exact List.mem_cons_self a as
      · exact List.mem_cons_of_mem a (snd_mem_of_mem_enumFrom as (i + 1) p h')

/-- Six-entry bound, preserved through the pools fold. -/
theorem poolsFold_length_le (dh : String) :
    ∀ (ps : List PanelPool) (acc : List StratumLocation), acc.length ≤ 6 →
      (ps.foldl (genPool dh) acc).length ≤ 6
  | [], _, h => h
  | p :: rest, acc, h =>
      poolsFold_length_le dh rest _ (genFold_length_le dh p _ acc h)

/-- Nonzero ports, preserved through the pools fold. -/
theorem poolsFold_port_ne (dh : String) :
    ∀ (ps : List PanelPool) (acc : List StratumLocation),
      (∀ loc ∈ acc, loc.port ≠ 0) →
      ∀ loc ∈ ps.foldl (genPool dh) acc, loc.port ≠ 0
  | [], _, h => h
  | p :: rest, acc, h =>
      poolsFold_port_ne dh rest _ (genFold_port_ne dh p _ acc h)

/-- The pools fold generates nothing when every key of every pool is falsy. -/
theorem poolsFold_falsy (dh : String) :
    ∀ (ps : List PanelPool) (acc : List StratumLocation),
      (∀ pool ∈ ps, ∀ k ∈ pool.ports.map Prod.fst,
          jsNumber k = none ∨ jsNumber k = some 0) →
      ps.foldl (genPool dh) acc = acc
  | [], _, _ => rfl
  | p :: rest, acc, h => by
      rw [List.foldl_cons]
      have hp : genPool dh acc p = acc := by
        apply genFold_falsy
        intro q hq
        exact h p (List.mem_cons_self p rest) q.2
          (snd_mem_of_mem_enumFrom (p.ports.map Prod.fst) 0 q hq)
      rw [hp]
      exact poolsFold_falsy dh rest acc (fun pool hpool => h pool (List.mem_cons_of_mem p hpool))

/-- C9 counterexample: the pool map `{"-1": {}}` yields a derived location
with port `-1` — the negative key is NOT skipped (only keys whose JavaScript
numeric value is falsy are), contradicting the claim that keys that are not
positive numbers are skipped (under the claim the list would have been the
port-5108 fallback). -/
theorem c9_counterexample :
    (derivedLocations c9Pools "pool.local" none).map (fun loc => loc.port) = [-1] ∧
    ¬ (0 < (-1 : Int)) ∧
    (derivedLocations c9Pools "pool.local" none).map (fun loc => loc.port) ≠ [5108] := by
  decide

/-- C9 (amended): with no explicit location list, the derived list has at
most six entries; every derived entry has a nonzero (but possibly negative)
port, since exactly the keys whose `Number` value is falsy (`0` or `NaN`) are
skipped; and when every key of every pool is falsy the list is exactly the
single port-5108 fallback entry on the default host. -/
theorem c9_derived_locations :
    (∀ (pools : List PanelPool) (host : String),
        (derivedLocations pools host none).length ≤ 6) ∧
    (∀ (pools : List PanelPool) (host : String),
        ∀ loc ∈ derivedLocations pools host none, loc.port ≠ 0) ∧
    (∀ (pools : List PanelPool) (host : String),
        (∀ pool ∈ pools, ∀ k ∈ pool.ports.map Prod.fst,
            jsNumber k = none ∨ jsNumber k = some 0) →
        derivedLocations pools host none =
          [{ id := "default-5108", label := "Primary · Port 5108", host := host,
             port := 5108, notes := some "Low-diff stratum for Jasminer getwork bridge" }]) := by
  refine ⟨?_, ?_, ?_⟩
  · intro pools host
    unfold derivedLocations derivedGenerated
    dsimp only
    split
    · rw [List.length_singleton]
      omega
    · exact poolsFold_length_le host pools [] (by decide)
  · intro pools host
    unfold derivedLocations derivedGenerated
    dsimp only
    split
    · intro loc hloc
      simp only [List.mem_singleton] at hloc
      subst hloc
      show (5108 : Int) ≠ 0
      decide
    · exact poolsFold_port_ne host pools [] (by intro loc h; cases h)
  · intro pools host h
    unfold derivedLocations derivedGenerated
    dsimp only
    rw [poolsFold_falsy host pools [] h]
    rfl

/-- C9 witness: the amended properties at concrete inputs — the negative-key
pool keeps its nonzero port, and a pool with only a non-numeric key falls
back to the port-5108 entry. -/
theorem c9_derived_locations_witness :
    (derivedLocations c9Pools "pool.local" none).length ≤ 6 ∧
    ({ id := "p--1", label := "P · Port -1", host := "pool.local", port := -1,
       notes := some "Diff auto" } : StratumLocation).port ≠ 0 ∧
    derivedLocations c9NoValid "pool.local" none =
      [{ id := "default-5108", label := "Primary · Port 5108", host := "pool.local",
         port := 5108, notes := some "Low-diff stratum for Jasminer getwork bridge" }] :=
  ⟨c9_derived_locations.1 c9Pools "pool.local",
   c9_derived_locations.2.1 c9Pools "pool.local" _ (by decide),
   c9_derived_locations.2.2 c9NoValid "pool.local" (by decide)⟩

/-- With no manual group selection, the group reconciliation picks the
best-latency group, else the default group, else the first group. -/
theorem reconcileGroups_auto (groups : List ConnectionGroup)
    (bG dG : Option ConnectionGroup) (s : SelState)
    (hm : s.manualGroup = false) (hne : groups ≠ []) :
    (reconcileGroups groups bG dG s).selectedGroupId =
      ((bG.orElse (fun _ => dG)).orElse (fun _ => groups.head?)).map (fun g => g.id) := by
  have hie : groups.isEmpty = false := by
    cases groups with
    | nil => exact absurd rfl hne
    | cons a as => rfl
  unfold reconcileGroups
  rw [hie]
  rw [if_neg (by simp)]
  dsimp only
  rw [hm]
  simp only [Bool.not_false, Bool.true_or, if_true]
  split
  · rfl
  · rename_i hcond
    exact (not_not.mp hcond).symm

/-- A manually selected group that is still present is left untouched by the
group reconciliation. -/
theorem reconcileGroups_manual_kept (groups : List ConnectionGroup)
    (bG dG : Option ConnectionGroup) (s : SelState) (gid : String) (g : ConnectionGroup)
    (hm : s.manualGroup = true) (hsel : s.selectedGroupId = some gid)
    (hfind : groups.find? (fun gg => gg.id == gid) = some g) :
    reconcileGroups groups bG dG s = s := by
  have hne : groups ≠ [] := by
    intro hnil
    rw [hnil] at hfind
    cases hfind
  have hie : groups.isEmpty = false := by
    cases groups with
    | nil => exact absurd rfl hne
    | cons a as => rfl
  have hpred := List.find?_some hfind
  have hany : groups.any (fun gg => gg.id == gid) = true :=
    List.any_eq_true.mpr ⟨g, List.mem_of_find?_eq_some hfind, hpred⟩
  unfold reconcileGroups
  rw [hie]
  rw [if_neg (by simp)]
  dsimp only
  rw [hsel]
  dsimp only
  rw [hany, hm]
  simp

/-- The group the endpoint effect operates on is the manually selected one
whenever the latter is still present. -/
theorem activeGroup_selected (groups : List ConnectionGroup)
    (bG dG : Option ConnectionGroup) (s : SelState) (gid : String) (g : ConnectionGroup)
    (hsel : s.selectedGroupId = some gid)
    (hfind : groups.find? (fun gg => gg.id == gid) = some g) :
    activeGroup groups bG dG s = some g := by
  unfold activeGroup
  rw [hsel]
  simp [hfind, Option.orElse]

/-- With no manual endpoint selection, the endpoint reconciliation stores the
id of `pickEndpointForGroup` applied to the active group. -/
theorem reconcileEndpoint_auto (groups : List ConnectionGroup)
    (bG dG : Option ConnectionGroup) (dRow : Option ConnectionRow) (m : LatencyMap)
    (s : SelState) (g : ConnectionGroup)
    (hm : s.manualEndpoint = false) (hag : activeGroup groups bG dG s = some g) :
    (reconcileEndpoint groups bG dG dRow m s).selectedEndpointId =
      (pickEndpointForGroup dRow m g).map (fun e => e.id) := by
  unfold reconcileEndpoint
  rw [hag]
  dsimp only
  rw [hm]
  simp only [Bool.not_false, Bool.true_or, if_true]
  split
  · rfl
  · rename_i hcond
    exact (not_not.mp hcond).symm

/-- A manually selected endpoint that is still present in the active group is
left untouched by the endpoint reconciliation. -/
theorem reconcileEndpoint_manual_kept (groups : List ConnectionGroup)
    (bG dG : Option ConnectionGroup) (dRow : Option ConnectionRow) (m : LatencyMap)
    (s : SelState) (gid xid : String) (g : ConnectionGroup)
    (hm : s.manualEndpoint = true) (hselG : s.selectedGroupId = some gid)
    (hselE : s.selectedEndpointId = some xid)
    (hfind : groups.find? (fun gg => gg.id == gid) = some g)
    (hany : g.endpoints.any (fun e => e.id == xid) = true) :
    reconcileEndpoint groups bG dG dRow m s = s := by
  unfold reconcileEndpoint
  rw [activeGroup_selected groups bG dG s gid g hselG hfind]
  dsimp only
  rw [hselE]
  dsimp only
  rw [hany, hm]
  simp

/-- A manually selected endpoint that vanished from the active group makes
the endpoint reconciliation recompute automatically: the manual flag is
cleared and the pick of `pickEndpointForGroup` is stored. -/
theorem reconcileEndpoint_manual_gone (groups : List ConnectionGroup)
    (bG dG : Option ConnectionGroup) (dRow : Option ConnectionRow) (m : LatencyMap)
    (s : SelState) (gid xid : String) (g : ConnectionGroup)
    (hm : s.manualEndpoint = true) (hselG : s.selectedGroupId = some gid)
    (hselE : s.selectedEndpointId = some xid)
    (hfind : groups.find? (fun gg => gg.id == gid) = some g)
    (hany : g.endpoints.any (fun e => e.id == xid) = false) :
    reconcileEndpoint groups bG dG dRow m s =
      { s with manualEndpoint := false,
               selectedEndpointId := (pickEndpointForGroup dRow m g).map (fun e => e.id) } := by
  have hnext : (pickEndpointForGroup dRow m g).map (fun e => e.id) ≠ some xid := by
    cases hp : pickEndpointForGroup dRow m g with
    | none => simp
    | some e =>
        simp only [Option.map_some', ne_eq, Option.some.injEq]
        intro heid
        have hmem := pickEndpointForGroup_mem dRow m g e hp
        have htrue : g.endpoints.any (fun x => x.id == xid) = true :=
          List.any_eq_true.mpr ⟨e, hmem, by simp [heid]⟩
        rw [hany] at htrue
        cases htrue
  unfold reconcileEndpoint
  rw [activeGroup_selected groups bG dG s gid g hselG hfind]
  dsimp only
  rw [hselE]
  dsimp only
  rw [hany, hm]
  simp [hnext]

/-- C2 counterexample: on one host with ports 4444 (difficulty 1000) and
5555 (difficulty 5000), where both have successful samples and 5555 has the
better latency, the automatic endpoint recomputation selects 4444 (the
default endpoint, preferred by `pickEndpointForGroup`) and not the
best-latency endpoint 5555 that the claim prescribes. -/
theorem c2_counterexample :
    (refresh c2Rows c2Map {}).selectedEndpointId = some "pool.local-4444" ∧
    (bestLatencyRow c2Rows c2Map).map (fun r => r.id) = some "pool.local-5555" ∧
    (refresh c2Rows c2Map {}).selectedEndpointId ≠
      (bestLatencyRow c2Rows c2Map).map (fun r => r.id) := by
  decide

/-- C2 (amended): when no manual selection is in force, the group-level
recomputation picks the best-latency group, else the default group, else the
first group; the endpoint-level recomputation instead stores the result of
`pickEndpointForGroup` on the active group, which prefers the group's copy of
the default endpoint over the best-latency endpoint and only falls back to
best-latency (then first) when no default, `mid`-profile or
variable-difficulty endpoint matches. -/
theorem c2_auto_selection :
    (∀ (groups : List ConnectionGroup) (bG dG : Option ConnectionGroup) (s : SelState),
        s.manualGroup = false → groups ≠ [] →
        (reconcileGroups groups bG dG s).selectedGroupId =
          ((bG.orElse (fun _ => dG)).orElse (fun _ => groups.head?)).map (fun g => g.id)) ∧
    (∀ (groups : List ConnectionGroup) (bG dG : Option ConnectionGroup)
        (dRow : Option ConnectionRow) (m : LatencyMap) (s : SelState) (g : ConnectionGroup),
        s.manualEndpoint = false →
        activeGroup groups bG dG s = some g →
        (reconcileEndpoint groups bG dG dRow m s).selectedEndpointId =
          (pickEndpointForGroup dRow m g).map (fun e => e.id)) ∧
    (∀ (m : LatencyMap) (g : ConnectionGroup) (d e : ConnectionRow),
        d.host = g.host →
        g.endpoints.find? (fun x => x.id == d.id) = some e →
        pickEndpointForGroup (some d) m g = some e) ∧
    (∀ (m : LatencyMap) (g : ConnectionGroup),
        g.endpoints.find? isMidProfile = none →
        g.endpoints.find? isVarDiffRow = none →
        pickEndpointForGroup none m g = fastestEndpointFor m g) := by
  refine ⟨reconcileGroups_auto, reconcileEndpoint_auto, ?_, ?_⟩
  · intro m g d e hh hfind
    simp only [pickEndpointForGroup]
    rw [if_pos hh, hfind]
  · intro m g h1 h2
    simp only [pickEndpointForGroup]
    rw [h1, h2]

/-- C2 witness: all four parts at the concrete one-host example. -/
theorem c2_auto_selection_witness :
    (reconcileGroups (connectionGroupsOf c2Rows) none none {}).selectedGroupId =
      (((none : Option ConnectionGroup).orElse (fun _ => none)).orElse
        (fun _ => (connectionGroupsOf c2Rows).head?)).map (fun g => g.id) ∧
    (reconcileEndpoint (connectionGroupsOf c2Rows) none none
        (defaultEndpointRow c2Rows) c2Map {}).selectedEndpointId =
      (pickEndpointForGroup (defaultEndpointRow c2Rows) c2Map c2Group).map (fun e => e.id) ∧
    pickEndpointForGroup (some (rowOfEntry "pool.local" (4444, { difficulty := some 1000 })))
        c2Map c2Group
      = some (rowOfEntry "pool.local" (4444, { difficulty := some 1000 })) ∧
    pickEndpointForGroup none c2Map c2Group = fastestEndpointFor c2Map c2Group :=
  ⟨c2_auto_selection.1 (connectionGroupsOf c2Rows) none none {} rfl (by decide),
   c2_auto_selection.2.1 (connectionGroupsOf c2Rows) none none
     (defaultEndpointRow c2Rows) c2Map {} c2Group rfl (by decide),
   c2_auto_selection.2.2.1 c2Map c2Group _ _ rfl (by decide),
   c2_auto_selection.2.2.2 c2Map c2Group (by decide) (by decide)⟩

/-- C6: once an endpoint is manually selected, a refresh whose derived groups
still contain it (in the still-present manually selected group) leaves the
selection on it — even if another endpoint has a better latency sample; and a
refresh from which it is absent clears the manual-endpoint flag and stores
the automatic recomputation (`pickEndpointForGroup` on the manual group) on
that same refresh. -/
theorem c6_manual_selection :
    (∀ (rows : List ConnectionRow) (m : LatencyMap) (s : SelState)
        (gid xid : String) (g : ConnectionGroup),
        s.manualGroup = true → s.manualEndpoint = true →
        s.selectedGroupId = some gid → s.selectedEndpointId = some xid →
        (connectionGroupsOf rows).find? (fun gg => gg.id == gid) = some g →
        g.endpoints.any (fun e => e.id == xid) = true →
        (refresh rows m s).selectedEndpointId = some xid) ∧
    (∀ (rows : List ConnectionRow) (m : LatencyMap) (s : SelState)
        (gid xid : String) (g : ConnectionGroup),
        s.manualGroup = true → s.manualEndpoint = true →
        s.selectedGroupId = some gid → s.selectedEndpointId = some xid →
        (connectionGroupsOf rows).find? (fun gg => gg.id == gid) = some g →
        g.endpoints.any (fun e => e.id == xid) = false →
        (refresh rows m s).manualEndpoint = false ∧
        (refresh rows m s).selectedEndpointId =
          (pickEndpointForGroup (defaultEndpointRow rows) m g).map (fun e => e.id)) := by
  constructor
  · intro rows m s gid xid g hmG hmE hselG hselE hfind hany
    simp only [refresh]
    rw [reconcileGroups_manual_kept (connectionGroupsOf rows) _ _ s gid g hmG hselG hfind]
    rw [reconcileEndpoint_manual_kept (connectionGroupsOf rows) _ _ _ m s gid xid g
      hmE hselG hselE hfind hany]
    exact hselE
  · intro rows m s gid xid g hmG hmE hselG hselE hfind hany
    simp only [refresh]
    rw [reconcileGroups_manual_kept (connectionGroupsOf rows) _ _ s gid g hmG hselG hfind]
    rw [reconcileEndpoint_manual_gone (connectionGroupsOf rows) _ _ _ m s gid xid g
      hmE hselG hselE hfind hany]
    exact ⟨rfl, rfl⟩

/-- C6 witness: the manual pick of port 7777 survives a refresh in which port
8888 has the better latency, and a refresh without port 7777 reverts to the
automatic pick with the manual flag cleared. -/
theorem c6_manual_selection_witness :
    (refresh c6Rows c6Map c6State).selectedEndpointId = some "pool.local-7777" ∧
    ((refresh c6RowsGone c6Map c6State).manualEndpoint = false ∧
      (refresh c6RowsGone c6Map c6State).selectedEndpointId =
        (pickEndpointForGroup (defaultEndpointRow c6RowsGone) c6Map c6GroupGone).map
          (fun e => e.id)) :=
  ⟨c6_manual_selection.1 c6Rows c6Map c6State "pool.local" "pool.local-7777" c6Group
      rfl rfl rfl rfl (by decide) (by decide),
   c6_manual_selection.2 c6RowsGone c6Map c6State "pool.local" "pool.local-7777" c6GroupGone
      rfl rfl rfl rfl (by decide) (by decide)⟩

end Webui2
